import Mathlib

/-!
Verification of the polar-plant dashboard core (`src/main.py`).

Strings are modelled as lists of Unicode code points (`List ℕ`).  The
data-discovery layer (`normalize_filename`, `load_env_data`,
`load_growth_data`), the statistics layer (`calculate_school_stats` and the
consumers in `main`), the best-school argmax and the ranked summary table are
embedded below, each definition translated from the corresponding Python.
Library calls (pandas `read_csv`, `ExcelFile`, `read_excel`) are external to
the repository; their outcome on each file is part of the modelled
file-system state (`Except` values carried by the directory entries).
-/

namespace PolarPlant

/-! ## Unicode model: algorithmic Hangul composition/decomposition

`unicodedata.normalize("NFC", s)` / `"NFD"` act on the Hangul syllable block
(U+AC00–U+D7A3) by the algorithmic mapping of the Unicode standard; the
school names are pure Hangul, for which this is all of NFC/NFD. -/

/-- Canonical composition of two code points: leading jamo + vowel jamo
gives an LV syllable, LV syllable + trailing jamo gives an LVT syllable. -/
def composePair (a b : ℕ) : Option ℕ :=
  if 0x1100 ≤ a ∧ a ≤ 0x1112 ∧ 0x1161 ≤ b ∧ b ≤ 0x1175 then
    some (0xAC00 + ((a - 0x1100) * 21 + (b - 0x1161)) * 28)
  else if 0xAC00 ≤ a ∧ a ≤ 0xD7A3 ∧ (a - 0xAC00) % 28 = 0 ∧
      0x11A8 ≤ b ∧ b ≤ 0x11C2 then
    some (a + (b - 0x11A7))
  else none

/-- Canonical (NFD) decomposition of one code point: a Hangul syllable
decomposes into its jamo, everything else is unchanged. -/
def decomposeChar (c : ℕ) : List ℕ :=
  if 0xAC00 ≤ c ∧ c ≤ 0xD7A3 then
    let si := c - 0xAC00
    let t := si % 28
    if t = 0 then [0x1100 + si / 588, 0x1161 + si % 588 / 28]
    else [0x1100 + si / 588, 0x1161 + si % 588 / 28, 0x11A7 + t]
  else [c]

/-- NFD of a string: decompose every code point. -/
def nfd (l : List ℕ) : List ℕ := l.flatMap decomposeChar

/-- Fuelled left-to-right canonical composition; fuel bounds the number of
steps so that the function is structurally recursive and kernel-evaluable. -/
def nfcGo : ℕ → List ℕ → List ℕ
  | 0, l => l
  | _ + 1, [] => []
  | _ + 1, [a] => [a]
  | fuel + 1, a :: b :: rest =>
    match composePair a b with
    | some c => nfcGo fuel (c :: rest)
    | none => a :: nfcGo fuel (b :: rest)

/-- NFC of a string: canonical composition (fuel = length always suffices). -/
def nfc (l : List ℕ) : List ℕ := nfcGo l.length l

/-- `normalize_filename` (src/main.py:34-36): `unicodedata.normalize("NFC", name)`. -/
def normalize_filename (name : List ℕ) : List ℕ := nfc name

/-- Python `startswith` on code-point lists. -/
def startsWith : List ℕ → List ℕ → Bool
  | [], _ => true
  | _ :: _, [] => false
  | a :: as', b :: bs => a == b && startsWith as' bs

/-- Python substring containment `needle in hay` on code-point lists. -/
def containsSub (needle : List ℕ) : List ℕ → Bool
  | [] => startsWith needle []
  | c :: rest => startsWith needle (c :: rest) || containsSub needle rest

/-! ## School configuration (src/main.py:27-32) -/

/-- School name 송도고 (code points). -/
def songdo : List ℕ := [0xC1A1, 0xB3C4, 0xACE0]

/-- School name 하늘고 (code points). -/
def haneul : List ℕ := [0xD558, 0xB298, 0xACE0]

/-- School name 아라고 (code points). -/
def ara : List ℕ := [0xC544, 0xB77C, 0xACE0]

/-- School name 동산고 (code points). -/
def dongsan : List ℕ := [0xB3D9, 0xC0B0, 0xACE0]

/-- One school's static configuration: target EC (dS/m), display color
(code points of the hex token), expected sample count. -/
structure SchoolCfg where
  name : List ℕ
  ec : ℚ
  color : List ℕ
  samples : ℕ
deriving DecidableEq

/-- `SCHOOL_CONFIG` (src/main.py:27-32), in dict insertion order. -/
def SCHOOL_CONFIG : List SchoolCfg :=
  [⟨songdo, 1, [35, 70, 70, 54, 66, 54, 66], 29⟩,
   ⟨haneul, 2, [35, 52, 69, 67, 68, 67, 52], 45⟩,
   ⟨ara, 4, [35, 57, 53, 69, 49, 68, 51], 106⟩,
   ⟨dongsan, 8, [35, 70, 70, 69, 54, 54, 68], 58⟩]

/-- `SCHOOL_CONFIG.keys()` in iteration order. -/
def schoolNamesList : List (List ℕ) := SCHOOL_CONFIG.map SchoolCfg.name

/-! ## Basic lemmas about the Unicode model -/

/-- A code point that is neither a vowel jamo nor a trailing jamo; such a
code point never canonically combines with the one before it. -/
def inertChar (c : ℕ) : Bool :=
  !((0x1161 ≤ c && c ≤ 0x1175) || (0x11A8 ≤ c && c ≤ 0x11C2))

theorem composePair_eq_none {b : ℕ} (a : ℕ) (h : inertChar b = true) :
    composePair a b = none := by
  unfold composePair
  simp only [inertChar, Bool.not_eq_true', Bool.or_eq_false_iff,
    Bool.and_eq_false_iff, decide_eq_false_iff_not, not_le] at h
  split
  · rename_i hc; exact absurd hc (by omega)
  · split
    · rename_i hc; exact absurd hc (by omega)
    · rfl

theorem nfcGo_congr : ∀ f1 f2 l, l.length ≤ f1 → l.length ≤ f2 →
    nfcGo f1 l = nfcGo f2 l := by
  intro f1
  induction f1 with
  | zero =>
    intro f2 l h1 _
    have : l = [] := List.length_eq_zero.mp (Nat.le_zero.mp h1)
    subst this
    cases f2 <;> rfl
  | succ n ih =>
    intro f2 l h1 h2
    match l, f2 with
    | [], f2 => cases f2 <;> rfl
    | [a], f2 =>
      match f2 with
      | 0 => simp at h2
      | m + 1 => rfl
    | a :: b :: rest, 0 => simp at h2
    | a :: b :: rest, m + 1 =>
      simp only [nfcGo]
      simp only [List.length_cons] at h1 h2
      cases hcp : composePair a b with
      | some c =>
        exact ih m (c :: rest) (by simp; omega) (by simp; omega)
      | none =>
        rw [ih m (b :: rest) (by simp; omega) (by simp; omega)]

/-- Unfolding equation for `nfc` on a list with at least two elements. -/
theorem nfc_cons_cons (a b : ℕ) (t : List ℕ) :
    nfc (a :: b :: t) = (match composePair a b with
      | some c => nfc (c :: t)
      | none => a :: nfc (b :: t)) := by
  show nfcGo (t.length + 1 + 1) (a :: b :: t) = _
  simp only [nfcGo]
  rfl

/-- Composition never crosses a code point that cannot combine leftwards:
`nfc` distributes over the split just before such a code point. -/
theorem nfc_append_inert : ∀ n xs y ys, xs.length ≤ n → inertChar y = true →
    nfc (xs ++ y :: ys) = nfc xs ++ nfc (y :: ys) := by
  intro n
  induction n with
  | zero =>
    intro xs y ys h _
    have : xs = [] := List.length_eq_zero.mp (Nat.le_zero.mp h)
    subst this
    rfl
  | succ n ih =>
    intro xs y ys hlen hy
    match xs with
    | [] => rfl
    | [a] =>
      show nfc (a :: y :: ys) = nfc [a] ++ nfc (y :: ys)
      rw [nfc_cons_cons, composePair_eq_none a hy]
      rfl
    | a :: b :: t =>
      simp only [List.length_cons] at hlen
      show nfc (a :: b :: (t ++ y :: ys)) = nfc (a :: b :: t) ++ nfc (y :: ys)
      rw [nfc_cons_cons a b (t ++ y :: ys), nfc_cons_cons a b t]
      cases hcp : composePair a b with
      | some c =>
        have hct : (c :: t).length ≤ n := by simp; omega
        have := ih (c :: t) y ys hct hy
        simp only [List.cons_append] at this
        simp [this]
      | none =>
        have hbt : (b :: t).length ≤ n := by simp; omega
        have := ih (b :: t) y ys hbt hy
        simp only [List.cons_append] at this
        simp [this]

/-- A string of code points that never combine leftwards is NFC-invariant. -/
theorem nfc_of_inert : ∀ n l, l.length ≤ n → (∀ c ∈ l, inertChar c = true) →
    nfc l = l := by
  intro n
  induction n with
  | zero =>
    intro l h _
    have : l = [] := List.length_eq_zero.mp (Nat.le_zero.mp h)
    subst this; rfl
  | succ n ih =>
    intro l hlen hin
    match l with
    | [] => rfl
    | [a] => rfl
    | a :: b :: t =>
      have hb : inertChar b = true := hin b (by simp)
      rw [nfc_cons_cons, composePair_eq_none a hb]
      have htail : nfc (b :: t) = b :: t := by
        apply ih
        · simp only [List.length_cons] at hlen ⊢; omega
        · intro c hc; exact hin c (by simp [hc])
      simp [htail]

theorem startsWith_append (n t : List ℕ) : startsWith n (n ++ t) = true := by
  induction n with
  | nil => rfl
  | cons a as' ih => simp [startsWith, ih]

theorem containsSub_of_middle (n pre suf : List ℕ) :
    containsSub n (pre ++ n ++ suf) = true := by
  induction pre with
  | nil =>
    simp only [List.nil_append]
    cases hn : n ++ suf with
    | nil =>
      have hne : n = [] := by
        cases n with
        | nil => rfl
        | cons a as' => simp at hn
      subst hne; rfl
    | cons c rest =>
      show (startsWith n (c :: rest) || containsSub n rest) = true
      rw [← hn, startsWith_append]
      rfl
  | cons p ps ih =>
    show (startsWith n (p :: (ps ++ n ++ suf)) || containsSub n (ps ++ n ++ suf)) = true
    rw [ih]
    simp

/-! ## File-system model and raw tabular data

A DataFrame as returned by pandas is modelled by its column names and its
rows of raw cells (code-point strings); `read_csv` / `ExcelFile` /
`read_excel` are pandas calls, external to the repository, so each modelled
file carries the outcome of those calls on it (`Except` = normal return or
raised exception). -/

/-- A loaded tabular frame: header (column names) and rows of raw cells. -/
structure Df where
  header : List (List ℕ)
  rows : List (List (List ℕ))
deriving DecidableEq

instance {ε α : Type} [DecidableEq ε] [DecidableEq α] : DecidableEq (Except ε α) := by
  intro a b
  cases a with
  | error e1 =>
    cases b with
    | error e2 =>
      exact if h : e1 = e2 then isTrue (by rw [h]) else
        isFalse (by intro hc; cases hc; exact h rfl)
    | ok a2 => exact isFalse (by intro hc; cases hc)
  | ok a1 =>
    cases b with
    | error e2 => exact isFalse (by intro hc; cases hc)
    | ok a2 =>
      exact if h : a1 = a2 then isTrue (by rw [h]) else
        isFalse (by intro hc; cases hc; exact h rfl)

/-- One sheet of a workbook: its name and what `pd.read_excel` yields on it. -/
structure Sheet where
  name : List ℕ
  readR : Except (List ℕ) Df
deriving DecidableEq

/-- One directory entry: its file name, what `pd.read_csv` yields on it, and
what `pd.ExcelFile` yields on it (the list of its sheets). -/
structure FileEntry where
  name : List ℕ
  readCsvR : Except (List ℕ) Df
  openXlsxR : Except (List ℕ) (List Sheet)
deriving DecidableEq

/-- The `data` directory: whether `Path("data").exists()` and the entries
`iterdir()` yields, in iteration order. -/
structure Directory where
  present : Bool
  entries : List FileEntry
deriving DecidableEq

/-- The user-facing messages the loaders emit (`st.error` / `st.warning`). -/
inductive Msg where
  | dataDirMissing : Msg
  | loadFail (fname : List ℕ) (e : List ℕ) : Msg
  | xlsxMissing : Msg
  | xlsxLoadFail (e : List ℕ) : Msg
deriving DecidableEq

/-- Python dict assignment `d[k] = v`: overwrite in place, else append. -/
def dictSet {V : Type} (k : List ℕ) (v : V) : List (List ℕ × V) → List (List ℕ × V)
  | [] => [(k, v)]
  | (k', v') :: rest => if k' = k then (k, v) :: rest else (k', v') :: dictSet k v rest

/-- Python dict lookup `d.get(k)` / `k in d`. -/
def dictGet {V : Type} (k : List ℕ) : List (List ℕ × V) → Option V
  | [] => none
  | (k', v') :: rest => if k' = k then some v' else dictGet k rest

/-- ASCII lower-casing of one code point (`str.lower` on the suffix). -/
def lowerCp (c : ℕ) : ℕ := if 65 ≤ c ∧ c ≤ 90 then c + 32 else c

/-- `pathlib.Path(name).suffix`: from the last dot, provided that dot is
neither the first nor the last character of the name. -/
def pathSuffix (name : List ℕ) : List ℕ :=
  match ((name.enum.filter (fun p => p.2 == 46)).map (fun p => p.1)).getLast? with
  | none => []
  | some i => if 0 < i ∧ i + 1 < name.length then name.drop i else []

/-- `file_path.suffix.lower() == '.csv'` (src/main.py:50). -/
def isCsvName (name : List ℕ) : Bool :=
  (pathSuffix name).map lowerCp == [46, 99, 115, 118]

/-- Membership in `data_path.glob("*.xlsx")` (src/main.py:76): the name ends
in `.xlsx` and, per glob's rule for `*`, does not start with a dot. -/
def isXlsxName (name : List ℕ) : Bool :=
  decide (5 ≤ name.length ∧ name.drop (name.length - 5) = [46, 120, 108, 115, 120])
    && !(name.headD 0 == 46)

/-! ## `load_env_data` (src/main.py:38-64) -/

/-- The inner school loop of `load_env_data` (src/main.py:54-62) for one CSV
file: walk the configured schools; on a normalized-substring match, try
`read_csv` — success stores the frame and breaks, an exception emits a
warning and continues with the next school. -/
def envMatchSchools (f : FileEntry) : List (List ℕ) → Option (List ℕ × Df) × List Msg
  | [] => (none, [])
  | s :: rest =>
    if containsSub (normalize_filename s) (normalize_filename f.name) then
      match f.readCsvR with
      | .ok df => (some (s, df), [])
      | .error e =>
        match envMatchSchools f rest with
        | (r, ms) => (r, Msg.loadFail (normalize_filename f.name) e :: ms)
    else envMatchSchools f rest

/-- The outer file loop of `load_env_data` (src/main.py:49-62), folding
over the directory entries and accumulating the dict and the warnings. -/
def envFold : List FileEntry → List (List ℕ × Df) × List Msg →
    List (List ℕ × Df) × List Msg
  | [], acc => acc
  | f :: rest, (dict, warns) =>
    if isCsvName f.name then
      match envMatchSchools f schoolNamesList with
      | (some (s, df), ms) => envFold rest (dictSet s df dict, warns ++ ms)
      | (none, ms) => envFold rest (dict, warns ++ ms)
    else envFold rest (dict, warns)

/-- Result of `load_env_data`: the `env_data` dict plus the emitted
warnings and errors. -/
structure EnvLoad where
  data : List (List ℕ × Df)
  warnings : List Msg
  errors : List Msg
deriving DecidableEq

/-- `load_env_data` (src/main.py:38-64). -/
def load_env_data (d : Directory) : EnvLoad :=
  if d.present = false then ⟨[], [], [Msg.dataDirMissing]⟩
  else
    match envFold d.entries ([], []) with
    | (dict, warns) => ⟨dict, warns, []⟩

/-! ## `load_growth_data` (src/main.py:66-102) -/

/-- The school loop of `load_growth_data` for one sheet (src/main.py:92-97):
first normalized-substring match reads the sheet and breaks; the
`pd.read_excel` call can raise, which escapes to the enclosing handler. -/
def sheetFirstMatch : List (List ℕ) → Sheet → Except (List ℕ) (Option (List ℕ × Df))
  | [], _ => .ok none
  | s :: rest, sh =>
    if containsSub (normalize_filename s) (normalize_filename sh.name) then
      match sh.readR with
      | .ok df => .ok (some (s, df))
      | .error e => .error e
    else sheetFirstMatch rest sh

/-- The sheet loop of `load_growth_data` (src/main.py:88-97): a raised
exception aborts the loop, keeping the entries accumulated so far and
turning the exception into the single error message of src/main.py:100. -/
def procSheets : List Sheet → List (List ℕ × Df) → List (List ℕ × Df) × List Msg
  | [], acc => (acc, [])
  | sh :: rest, acc =>
    match sheetFirstMatch schoolNamesList sh with
    | .ok none => procSheets rest acc
    | .ok (some (s, df)) => procSheets rest (dictSet s df acc)
    | .error e => (acc, [Msg.xlsxLoadFail e])

/-- Result of `load_growth_data`: the `growth_data` dict plus the emitted
errors. -/
structure GrowthLoad where
  data : List (List ℕ × Df)
  errors : List Msg
deriving DecidableEq

/-- `load_growth_data` (src/main.py:66-102). -/
def load_growth_data (d : Directory) : GrowthLoad :=
  if d.present = false then ⟨[], []⟩
  else
    match d.entries.filter (fun f => isXlsxName f.name) with
    | [] => ⟨[], [Msg.xlsxMissing]⟩
    | f :: _ =>
      match f.openXlsxR with
      | .error e => ⟨[], [Msg.xlsxLoadFail e]⟩
      | .ok sheets =>
        match procSheets sheets [] with
        | (m, es) => ⟨m, es⟩

/-! ## `st.cache_data` memoization (src/main.py:38,66)

The decorator returns the cached value when one exists and otherwise runs
the function and stores its result; the loaders take no arguments, so the
cache key is trivial. -/

/-- One invocation of the cached `load_env_data`: returns the result and
the cache state after the call. -/
def invokeEnvCached (cache : Option EnvLoad) (d : Directory) :
    EnvLoad × Option EnvLoad :=
  match cache with
  | some r => (r, some r)
  | none => (load_env_data d, some (load_env_data d))

/-- One invocation of the cached `load_growth_data`. -/
def invokeGrowthCached (cache : Option GrowthLoad) (d : Directory) :
    GrowthLoad × Option GrowthLoad :=
  match cache with
  | some r => (r, some r)
  | none => (load_growth_data d, some (load_growth_data d))

/-! ## `calculate_school_stats` (src/main.py:104-125)

The statistics layer works on frames whose required columns are numeric, as
pandas types them for well-formed inputs; a row is therefore a record of the
columns the function reads.  Reals are idealized as `ℚ`; the pandas `mean`
of an empty series is the float `NaN`, kept as an explicit value `PVal.nan`. -/

/-- One row of an environment frame: the columns `load_env_data`'s CSVs
carry; the timestamp stays the raw string the loader read. -/
structure EnvRow where
  time : List ℕ
  temperature : ℚ
  humidity : ℚ
  ph : ℚ
  ec : ℚ
deriving DecidableEq

/-- One row of a growth sheet: 생중량(g), 잎 수(장), 지상부 길이(mm),
지하부길이(mm). -/
structure GrowthRow where
  weight : ℚ
  leafCount : ℚ
  shootLen : ℚ
  rootLen : ℚ
deriving DecidableEq

/-- A pandas float scalar: a number or NaN. -/
inductive PVal where
  | num (q : ℚ)
  | nan
deriving DecidableEq

/-- `Series.mean()`: NaN on an empty series, else the arithmetic mean. -/
def seriesMean (xs : List ℚ) : PVal :=
  if xs.length = 0 then PVal.nan else PVal.num (xs.sum / xs.length)

/-- The `stats` dict built by `calculate_school_stats`: each key is present
(`some`) exactly when the corresponding branch stored it. -/
structure SchoolStats where
  temp_avg : Option PVal := none
  humidity_avg : Option PVal := none
  ph_avg : Option PVal := none
  ec_avg : Option PVal := none
  weight_avg : Option PVal := none
  leaf_avg : Option PVal := none
  above_avg : Option PVal := none
  below_avg : Option PVal := none
  sample_count : Option ℕ := none
deriving DecidableEq

/-- `calculate_school_stats` (src/main.py:104-125), value-level view: the
typed rows assume the required columns are present, so this view is the one
for reasoning about the values stored in `stats`; the totality-relevant
view, in which the column accesses of src/main.py:111-123 can raise
`KeyError`, is `calculate_school_statsE` below. -/
def calculate_school_stats (env_data : List (List ℕ × List EnvRow))
    (growth_data : List (List ℕ × List GrowthRow)) (school : List ℕ) :
    SchoolStats :=
  let s0 : SchoolStats := {}
  let s1 :=
    match dictGet school env_data with
    | some rows =>
      { s0 with
        temp_avg := some (seriesMean (rows.map EnvRow.temperature)),
        humidity_avg := some (seriesMean (rows.map EnvRow.humidity)),
        ph_avg := some (seriesMean (rows.map EnvRow.ph)),
        ec_avg := some (seriesMean (rows.map EnvRow.ec)) }
    | none => s0
  match dictGet school growth_data with
  | some rows =>
    { s1 with
      weight_avg := some (seriesMean (rows.map GrowthRow.weight)),
      leaf_avg := some (seriesMean (rows.map GrowthRow.leafCount)),
      above_avg := some (seriesMean (rows.map GrowthRow.shootLen)),
      below_avg := some (seriesMean (rows.map GrowthRow.rootLen)),
      sample_count := some rows.length }
  | none => s1

/-! ## The consumers in `main` (src/main.py:211-216, 267-270, 324-328) -/

/-- `stats.get('ec_avg', 0)` for one school (src/main.py:213). -/
def statGetEc (env_data : List (List ℕ × List EnvRow))
    (growth_data : List (List ℕ × List GrowthRow)) (school : List ℕ) : PVal :=
  (calculate_school_stats env_data growth_data school).ec_avg.getD (PVal.num 0)

/-- `stats.get('ph_avg', 0)` for one school (src/main.py:214). -/
def statGetPh (env_data : List (List ℕ × List EnvRow))
    (growth_data : List (List ℕ × List GrowthRow)) (school : List ℕ) : PVal :=
  (calculate_school_stats env_data growth_data school).ph_avg.getD (PVal.num 0)

/-- `stats.get('weight_avg', 0)` for one school (src/main.py:270, 327). -/
def statGetWeight (env_data : List (List ℕ × List EnvRow))
    (growth_data : List (List ℕ × List GrowthRow)) (school : List ℕ) : PVal :=
  (calculate_school_stats env_data growth_data school).weight_avg.getD (PVal.num 0)

/-- The `ec_values` list built over the schools (src/main.py:211-213). -/
def ecValues (env_data : List (List ℕ × List EnvRow))
    (growth_data : List (List ℕ × List GrowthRow)) : List PVal :=
  schoolNamesList.map (statGetEc env_data growth_data)

/-! ## Best-performing school (src/main.py:310-313, 383-386)

`optimal_idx = weight_values.index(max(weight_values))`: Python `max`
keeps the first of equal maxima, and `list.index` returns the first index
holding the value; the weights are the per-school means, numbers here. -/

/-- Python `max` on a list of numbers: fold that replaces the current
maximum only when the new item is strictly greater. -/
def pyMax (l : List ℚ) : Option ℚ :=
  match l with
  | [] => none
  | x :: xs => some (xs.foldl (fun c y => if c < y then y else c) x)

/-- Python `list.index`: first index holding the value. -/
def pyIndexOf (l : List ℚ) (v : ℚ) : Option ℕ :=
  match l with
  | [] => none
  | x :: xs => if x = v then some 0 else (pyIndexOf xs v).map (· + 1)

/-- `weight_values.index(max(weight_values))` (src/main.py:310, 383). -/
def optimalIdx (ws : List ℚ) : Option ℕ :=
  (pyMax ws).bind (pyIndexOf ws)

/-- `optimal_school = schools[optimal_idx]` (src/main.py:311, 384). -/
def optimalSchool (ws : List ℚ) : Option (List ℕ) :=
  (optimalIdx ws).bind (schoolNamesList.get? ·)

/-! ## The ranked summary table (src/main.py:432-446)

Each numeric value is rendered with an f-string (`.2f` for EC and pH,
`.3f` for weight) and the resulting **strings** are what
`sort_values('생중량 (g)', ascending=False)` sorts, lexicographically by
code point; `순위` (rank) is then `1..n` in table order. -/

/-- Round the fraction `n / d` (`d ≠ 0`) to the nearest integer, ties to
even (float formatting rule): `f` is the floor, `r` the remainder, and the
comparison of `2r` with `d` compares the fractional part with `1/2`. -/
def roundHalfEvenFrac (n : ℤ) (d : ℕ) : ℤ :=
  let f := Int.fdiv n d
  let r := n - f * d
  if 2 * r < (d : ℤ) then f
  else if (d : ℤ) < 2 * r then f + 1
  else if f % 2 = 0 then f else f + 1

/-- Decimal digits of a natural number, most significant first. -/
def natDigits (n : ℕ) : List ℕ := (Nat.toDigits 10 n).map Char.toNat

/-- Exactly `k` decimal digits of `fp < 10^k`, with leading zeros. -/
def padDigits (k fp : ℕ) : List ℕ :=
  (List.range k).reverse.map (fun i => 48 + fp / 10 ^ i % 10)

/-- Python `f"{q:.kf}"` fixed-point formatting, idealized over `ℚ`: round
`q·10^k` to the nearest integer (ties to even) and print sign, integer part,
dot, and `k` fraction digits. -/
def formatFixed (k : ℕ) (q : ℚ) : List ℕ :=
  let n := roundHalfEvenFrac (q.num * (10 ^ k : ℕ)) q.den
  let a := n.natAbs
  (if n < 0 then [45] else []) ++ natDigits (a / 10 ^ k) ++ [46] ++ padDigits k (a % 10 ^ k)

/-- Python string `<` (lexicographic by code point, prefix is smaller). -/
def strLtB : List ℕ → List ℕ → Bool
  | [], [] => false
  | [], _ :: _ => true
  | _ :: _, [] => false
  | a :: as', b :: bs => if a < b then true else if b < a then false else strLtB as' bs

/-- One row of the summary table before rank assignment: school name and
the three formatted strings. -/
structure SummaryRow0 where
  school : List ℕ
  ecStr : List ℕ
  phStr : List ℕ
  wStr : List ℕ
deriving DecidableEq

/-- One row of the final summary table, rank attached. -/
structure SummaryRow where
  school : List ℕ
  ecStr : List ℕ
  phStr : List ℕ
  wStr : List ℕ
  rank : ℕ
deriving DecidableEq

/-- Insert a row into a list kept in descending weight-string order. -/
def insertRowDesc (r : SummaryRow0) : List SummaryRow0 → List SummaryRow0
  | [] => [r]
  | x :: xs => if strLtB r.wStr x.wStr then x :: insertRowDesc r xs else r :: x :: xs

/-- `sort_values('생중량 (g)', ascending=False)`: sort the rows by the
formatted weight string, descending (tie order is not specified by pandas;
this model inserts later rows after equal keys). -/
def sortRowsDesc (l : List SummaryRow0) : List SummaryRow0 :=
  l.foldl (fun acc r => insertRowDesc r acc) []

/-- `summary_df['순위'] = range(1, len(summary_df) + 1)` (src/main.py:444). -/
def attachRanks : ℕ → List SummaryRow0 → List SummaryRow
  | _, [] => []
  | i, r :: rs => ⟨r.school, r.ecStr, r.phStr, r.wStr, i⟩ :: attachRanks (i + 1) rs

/-- The summary table of src/main.py:432-446 for the per-school value lists
(in configuration order): build the formatted rows, sort by the weight
string descending, then attach ranks `1..n`. -/
def summaryTable (ecs phs ws : List ℚ) : List SummaryRow :=
  let rows := (schoolNamesList.zip ((ecs.map (formatFixed 2)).zip
    ((phs.map (formatFixed 2)).zip (ws.map (formatFixed 3))))).map
    (fun p => SummaryRow0.mk p.1 p.2.1 p.2.2.1 p.2.2.2)
  attachRanks 1 (sortRowsDesc rows)

/-! ## Helpers used only to state claims -/

/-- The column name `time`. -/
def timeColName : List ℕ := [116, 105, 109, 101]

/-- The cells of the named column of a frame (empty if the column is
absent); used to state claims about the `time` column. -/
def dfColumn (df : Df) (cname : List ℕ) : List (List ℕ) :=
  match df.header.findIdx? (fun c => c == cname) with
  | none => []
  | some i => df.rows.map (fun r => r.getD i [])

/-- Is one of the digits `0`-`9`. -/
def isDigitCp (c : ℕ) : Bool := 48 ≤ c && c ≤ 57

/-- Modelled from the spec: `load_env_data` contains no timestamp parser
(it stores the frame exactly as read), so the spec's "parseable date-time"
is modelled as the canonical `YYYY-MM-DD HH:MM` shape. -/
def specParseableTs (cell : List ℕ) : Bool :=
  match cell with
  | [a, b, c, d, e, f, g, h, i, j, k, l, m, n, o, p] =>
    isDigitCp a && isDigitCp b && isDigitCp c && isDigitCp d && (e == 45) &&
    isDigitCp f && isDigitCp g && (h == 45) && isDigitCp i && isDigitCp j &&
    (k == 32) && isDigitCp l && isDigitCp m && (n == 58) && isDigitCp o && isDigitCp p
  | _ => false

/-- The first configured school whose normalized name is contained in the
normalized candidate name — the school the matching loops of
src/main.py:54-56 and 92-94 select. -/
def firstMatchSchool (name : List ℕ) : Option (List ℕ) :=
  schoolNamesList.find?
    (fun s => containsSub (normalize_filename s) (normalize_filename name))

/-! ## Lemmas: dict operations -/

theorem dictGet_dictSet_self {V : Type} (k : List ℕ) (v : V) :
    ∀ l, dictGet k (dictSet k v l) = some v := by
  intro l
  induction l with
  | nil => simp [dictSet, dictGet]
  | cons p rest ih =>
    obtain ⟨k', v'⟩ := p
    by_cases h : k' = k
    · simp [dictSet, dictGet, h]
    · simp [dictSet, dictGet, h, ih]

theorem dictGet_dictSet_ne {V : Type} (k k' : List ℕ) (v : V) (hne : k ≠ k') :
    ∀ l, dictGet k (dictSet k' v l) = dictGet k l := by
  have hk : ¬(k' = k) := fun h => hne h.symm
  intro l
  induction l with
  | nil =>
    show dictGet k [(k', v)] = none
    simp only [dictGet, if_neg hk]
  | cons p rest ih =>
    obtain ⟨k0, v0⟩ := p
    by_cases h : k0 = k'
    · subst h
      have hk0 : ¬(k0 = k) := fun h0 => hne h0.symm
      show dictGet k (dictSet k0 v ((k0, v0) :: rest)) = dictGet k ((k0, v0) :: rest)
      simp only [dictSet, if_pos rfl, dictGet, if_neg hk0]
    · show dictGet k (dictSet k' v ((k0, v0) :: rest)) = dictGet k ((k0, v0) :: rest)
      simp only [dictSet, if_neg h, dictGet]
      by_cases h0 : k0 = k
      · simp only [if_pos h0]
      · simp only [if_neg h0]
        exact ih

theorem dictGet_dictSet_isSome {V : Type} (k k' : List ℕ) (v : V) (l : List (List ℕ × V))
    (h : (dictGet k l).isSome = true) :
    (dictGet k (dictSet k' v l)).isSome = true := by
  by_cases hk : k = k'
  · subst hk; simp [dictGet_dictSet_self]
  · rw [dictGet_dictSet_ne k k' v hk]; exact h

/-! ## Lemmas: Python max and index -/

theorem foldlMax_mem (xs : List ℚ) :
    ∀ x, xs.foldl (fun c z => if c < z then z else c) x ∈ x :: xs := by
  induction xs with
  | nil => intro x; simp
  | cons a as ih =>
    intro x
    simp only [List.foldl]
    have h := ih (if x < a then a else x)
    rcases List.mem_cons.mp h with h1 | h1
    · rw [h1]
      split
      · simp
      · simp
    · simp [List.mem_cons, h1]

theorem foldlMax_ge_init (xs : List ℚ) :
    ∀ x, x ≤ xs.foldl (fun c z => if c < z then z else c) x := by
  induction xs with
  | nil => intro x; simp
  | cons a as ih =>
    intro x
    simp only [List.foldl]
    have h1 : x ≤ if x < a then a else x := by
      split
      · exact le_of_lt (by assumption)
      · exact le_refl x
    exact le_trans h1 (ih _)

theorem foldlMax_ge_mem (xs : List ℚ) :
    ∀ x, ∀ y ∈ xs, y ≤ xs.foldl (fun c z => if c < z then z else c) x := by
  induction xs with
  | nil => intro x y hy; simp at hy
  | cons a as ih =>
    intro x y hy
    simp only [List.foldl]
    rcases List.mem_cons.mp hy with rfl | h
    · have ha : y ≤ if x < y then y else x := by
        split
        · exact le_refl y
        · exact le_of_not_lt (by assumption)
      exact le_trans ha (foldlMax_ge_init as _)
    · exact ih _ y h

theorem pyMax_spec (l : List ℚ) (m : ℚ) (h : pyMax l = some m) :
    m ∈ l ∧ ∀ y ∈ l, y ≤ m := by
  match l with
  | [] => simp [pyMax] at h
  | x :: xs =>
    simp only [pyMax, Option.some.injEq] at h
    subst h
    refine ⟨foldlMax_mem xs x, ?_⟩
    intro y hy
    rcases List.mem_cons.mp hy with rfl | hmem
    · exact foldlMax_ge_init xs y
    · exact foldlMax_ge_mem xs x y hmem

theorem pyIndexOf_spec : ∀ (l : List ℚ) (v : ℚ) (i : ℕ),
    pyIndexOf l v = some i →
    l.get? i = some v ∧ ∀ j, j < i → l.get? j ≠ some v := by
  intro l
  induction l with
  | nil => intro v i h; simp [pyIndexOf] at h
  | cons x xs ih =>
    intro v i h
    simp only [pyIndexOf] at h
    by_cases hx : x = v
    · rw [if_pos hx] at h
      injection h with h
      subst h
      exact ⟨by simpa using hx, by intro j hj; omega⟩
    · rw [if_neg hx] at h
      cases hrec : pyIndexOf xs v with
      | none => rw [hrec] at h; simp at h
      | some i0 =>
        rw [hrec] at h
        simp at h
        subst h
        obtain ⟨hv, hprev⟩ := ih v i0 hrec
        refine ⟨hv, ?_⟩
        intro j hj
        cases j with
        | zero => simpa using hx
        | succ j0 => exact hprev j0 (by omega)

theorem pyIndexOf_of_mem : ∀ (l : List ℚ) (v : ℚ), v ∈ l →
    ∃ i, pyIndexOf l v = some i := by
  intro l
  induction l with
  | nil => intro v hv; simp at hv
  | cons x xs ih =>
    intro v hv
    by_cases hx : x = v
    · exact ⟨0, by simp [pyIndexOf, hx]⟩
    · rcases List.mem_cons.mp hv with rfl | hmem
      · exact absurd rfl hx
      · obtain ⟨i, hi⟩ := ih v hmem
        exact ⟨i + 1, by simp [pyIndexOf, hx, hi]⟩

/-! ## Lemmas: the environment loader -/

theorem countP_partition {α : Type} (p : α → Bool) :
    ∀ l : List α, l.countP p + l.countP (fun a => !(p a)) = l.length := by
  intro l
  induction l with
  | nil => rfl
  | cons a l ih =>
    simp only [List.countP_cons, List.length_cons]
    cases p a <;> simp <;> omega

theorem envMatchSchools_some : ∀ (schools : List (List ℕ)) (f : FileEntry)
    (s : List ℕ) (df : Df) (ms : List Msg),
    envMatchSchools f schools = (some (s, df), ms) →
    s ∈ schools ∧ f.readCsvR = .ok df ∧
      containsSub (normalize_filename s) (normalize_filename f.name) = true := by
  intro schools
  induction schools with
  | nil =>
    intro f s df ms h
    simp [envMatchSchools] at h
  | cons s0 rest ih =>
    intro f s df ms h
    simp only [envMatchSchools] at h
    by_cases hm : containsSub (normalize_filename s0) (normalize_filename f.name) = true
    · rw [if_pos hm] at h
      cases hr : f.readCsvR with
      | ok df0 =>
        rw [hr] at h
        injection h with h1 h2
        injection h1 with h1
        injection h1 with h1a h1b
        subst h1a
        subst h1b
        exact ⟨by simp, rfl, hm⟩
      | error e =>
        rw [hr] at h
        rcases hE : envMatchSchools f rest with ⟨r, ms2⟩
        rw [hE] at h
        injection h with h1 h2
        subst h1
        obtain ⟨hmem, hok, hc⟩ := ih f s df ms2 hE
        rw [hr] at hok
        exact absurd hok (by simp)
    · rw [if_neg hm] at h
      obtain ⟨hmem, hok, hc⟩ := ih f s df ms h
      exact ⟨by simp [hmem], hok, hc⟩

theorem envMatchSchools_ok (f : FileEntry) (df : Df) (hok : f.readCsvR = .ok df) :
    ∀ schools : List (List ℕ),
      envMatchSchools f schools =
        ((schools.find? (fun s =>
          containsSub (normalize_filename s) (normalize_filename f.name))).map
          (fun s => (s, df)), []) := by
  intro schools
  induction schools with
  | nil => simp [envMatchSchools]
  | cons s0 rest ih =>
    simp only [envMatchSchools]
    by_cases hm : containsSub (normalize_filename s0) (normalize_filename f.name) = true
    · rw [if_pos hm, hok]
      simp only [List.find?_cons, hm]
      rfl
    · have hmf : containsSub (normalize_filename s0) (normalize_filename f.name) = false := by
        simpa using hm
      rw [if_neg hm, ih]
      simp only [List.find?_cons, hmf]

theorem envFold_append : ∀ (l1 l2 : List FileEntry)
    (acc : List (List ℕ × Df) × List Msg),
    envFold (l1 ++ l2) acc = envFold l2 (envFold l1 acc) := by
  intro l1
  induction l1 with
  | nil => intro l2 acc; rfl
  | cons f rest ih =>
    intro l2 acc
    obtain ⟨dict, warns⟩ := acc
    show envFold (f :: (rest ++ l2)) (dict, warns) = _
    simp only [envFold]
    by_cases hc : isCsvName f.name = true
    · rw [if_pos hc, if_pos hc]
      rcases hE : envMatchSchools f schoolNamesList with ⟨r, ms⟩
      cases r with
      | some p =>
        obtain ⟨s, df⟩ := p
        exact ih l2 _
      | none => exact ih l2 _
    · rw [if_neg hc, if_neg hc]
      exact ih l2 _

theorem envFold_isSome_mono : ∀ (entries : List FileEntry)
    (dict : List (List ℕ × Df)) (warns : List Msg) (s : List ℕ),
    (dictGet s dict).isSome = true →
    (dictGet s (envFold entries (dict, warns)).1).isSome = true := by
  intro entries
  induction entries with
  | nil => intro dict warns s h; exact h
  | cons f rest ih =>
    intro dict warns s h
    simp only [envFold]
    by_cases hc : isCsvName f.name = true
    · rw [if_pos hc]
      rcases hE : envMatchSchools f schoolNamesList with ⟨r, ms⟩
      cases r with
      | some p =>
        obtain ⟨s', df'⟩ := p
        exact ih _ _ s (dictGet_dictSet_isSome s s' df' dict h)
      | none => exact ih _ _ s h
    · rw [if_neg hc]
      exact ih _ _ s h

theorem envFold_lookup : ∀ (entries : List FileEntry)
    (dict : List (List ℕ × Df)) (warns : List Msg) (s : List ℕ) (df : Df),
    dictGet s (envFold entries (dict, warns)).1 = some df →
    dictGet s dict = some df ∨
      ∃ f, f ∈ entries ∧ isCsvName f.name = true ∧
        containsSub (normalize_filename s) (normalize_filename f.name) = true ∧
        f.readCsvR = .ok df := by
  intro entries
  induction entries with
  | nil => intro dict warns s df h; exact Or.inl h
  | cons f rest ih =>
    intro dict warns s df h
    simp only [envFold] at h
    by_cases hc : isCsvName f.name = true
    · rw [if_pos hc] at h
      rcases hE : envMatchSchools f schoolNamesList with ⟨r, ms⟩
      rw [hE] at h
      cases r with
      | some p =>
        obtain ⟨s', df'⟩ := p
        rcases ih _ _ s df h with h1 | h1
        · by_cases hss : s = s'
          · subst hss
            rw [dictGet_dictSet_self] at h1
            injection h1 with h1
            subst h1
            obtain ⟨_, hok, hcont⟩ := envMatchSchools_some _ f s df' ms hE
            exact Or.inr ⟨f, by simp, hc, hcont, hok⟩
          · rw [dictGet_dictSet_ne s s' df' hss] at h1
            exact Or.inl h1
        · obtain ⟨f', hf', rest'⟩ := h1
          exact Or.inr ⟨f', by simp [hf'], rest'⟩
      | none =>
        rcases ih _ _ s df h with h1 | h1
        · exact Or.inl h1
        · obtain ⟨f', hf', rest'⟩ := h1
          exact Or.inr ⟨f', by simp [hf'], rest'⟩
    · rw [if_neg hc] at h
      rcases ih _ _ s df h with h1 | h1
      · exact Or.inl h1
      · obtain ⟨f', hf', rest'⟩ := h1
        exact Or.inr ⟨f', by simp [hf'], rest'⟩

theorem load_env_data_data : ∀ d : Directory, d.present = true →
    (load_env_data d).data = (envFold d.entries ([], [])).1 := by
  intro d hp
  simp only [load_env_data, hp]
  rcases hE : envFold d.entries ([], []) with ⟨dict, warns⟩
  simp

theorem load_env_data_lookup (d : Directory) (s : List ℕ) (df : Df)
    (h : dictGet s (load_env_data d).data = some df) :
    ∃ f, f ∈ d.entries ∧ isCsvName f.name = true ∧
      containsSub (normalize_filename s) (normalize_filename f.name) = true ∧
      f.readCsvR = .ok df := by
  by_cases hp : d.present = true
  · rw [load_env_data_data d hp] at h
    rcases envFold_lookup d.entries [] [] s df h with h1 | h1
    · simp [dictGet] at h1
    · exact h1
  · have hp' : d.present = false := by simpa using hp
    simp [load_env_data, hp', dictGet] at h

/-! ## Lemmas: the growth loader -/

theorem sheetFirstMatch_some : ∀ (schools : List (List ℕ)) (sh : Sheet)
    (s : List ℕ) (df : Df),
    sheetFirstMatch schools sh = .ok (some (s, df)) →
    s ∈ schools ∧
      containsSub (normalize_filename s) (normalize_filename sh.name) = true ∧
      sh.readR = .ok df := by
  intro schools
  induction schools with
  | nil => intro sh s df h; simp [sheetFirstMatch] at h
  | cons s0 rest ih =>
    intro sh s df h
    simp only [sheetFirstMatch] at h
    by_cases hm : containsSub (normalize_filename s0) (normalize_filename sh.name) = true
    · rw [if_pos hm] at h
      cases hr : sh.readR with
      | ok df0 =>
        rw [hr] at h
        injection h with h1
        injection h1 with h1
        injection h1 with h1a h1b
        subst h1a
        subst h1b
        exact ⟨by simp, hm, rfl⟩
      | error e =>
        rw [hr] at h
        cases h
    · rw [if_neg hm] at h
      obtain ⟨hmem, hc, hok⟩ := ih sh s df h
      exact ⟨by simp [hmem], hc, hok⟩

theorem procSheets_lookup : ∀ (sheets : List Sheet)
    (acc : List (List ℕ × Df)) (s : List ℕ) (df : Df),
    dictGet s (procSheets sheets acc).1 = some df →
    dictGet s acc = some df ∨
      ∃ sh, sh ∈ sheets ∧
        containsSub (normalize_filename s) (normalize_filename sh.name) = true ∧
        sh.readR = .ok df := by
  intro sheets
  induction sheets with
  | nil => intro acc s df h; exact Or.inl h
  | cons sh rest ih =>
    intro acc s df h
    simp only [procSheets] at h
    cases hE : sheetFirstMatch schoolNamesList sh with
    | ok r =>
      rw [hE] at h
      cases r with
      | some p =>
        obtain ⟨s', df'⟩ := p
        rcases ih _ s df h with h1 | h1
        · by_cases hss : s = s'
          · subst hss
            rw [dictGet_dictSet_self] at h1
            injection h1 with h1
            subst h1
            obtain ⟨_, hc, hok⟩ := sheetFirstMatch_some _ sh s df' hE
            exact Or.inr ⟨sh, by simp, hc, hok⟩
          · rw [dictGet_dictSet_ne s s' df' hss] at h1
            exact Or.inl h1
        · obtain ⟨sh', hsh', rest'⟩ := h1
          exact Or.inr ⟨sh', by simp [hsh'], rest'⟩
      | none =>
        rcases ih _ s df h with h1 | h1
        · exact Or.inl h1
        · obtain ⟨sh', hsh', rest'⟩ := h1
          exact Or.inr ⟨sh', by simp [hsh'], rest'⟩
    | error e =>
      rw [hE] at h
      exact Or.inl h

theorem load_growth_data_lookup (d : Directory) (s : List ℕ) (df : Df)
    (h : dictGet s (load_growth_data d).data = some df) :
    ∃ f, f ∈ d.entries ∧ isXlsxName f.name = true ∧
      ∃ sheets, f.openXlsxR = .ok sheets ∧
        ∃ sh, sh ∈ sheets ∧
          containsSub (normalize_filename s) (normalize_filename sh.name) = true ∧
          sh.readR = .ok df := by
  by_cases hp : d.present = true
  · cases hfil : d.entries.filter (fun f => isXlsxName f.name) with
    | nil =>
      have hd : load_growth_data d = ⟨[], [Msg.xlsxMissing]⟩ := by
        simp [load_growth_data, hp, hfil]
      rw [hd] at h
      simp [dictGet] at h
    | cons f rest =>
      have hfmem : f ∈ d.entries.filter (fun f => isXlsxName f.name) := by
        rw [hfil]; simp
      have hfe : f ∈ d.entries := List.mem_of_mem_filter hfmem
      have hfx : isXlsxName f.name = true := by
        have := List.of_mem_filter hfmem
        simpa using this
      cases hopen : f.openXlsxR with
      | error e =>
        have hd : load_growth_data d = ⟨[], [Msg.xlsxLoadFail e]⟩ := by
          simp [load_growth_data, hp, hfil, hopen]
        rw [hd] at h
        simp [dictGet] at h
      | ok sheets =>
        rcases hps : procSheets sheets [] with ⟨m, es⟩
        have hd : load_growth_data d = ⟨m, es⟩ := by
          simp [load_growth_data, hp, hfil, hopen, hps]
        rw [hd] at h
        have h' : dictGet s (procSheets sheets []).1 = some df := by
          rw [hps]; exact h
        rcases procSheets_lookup sheets [] s df h' with h1 | h1
        · simp [dictGet] at h1
        · exact ⟨f, hfe, hfx, sheets, hopen, h1⟩
  · have hp' : d.present = false := by simpa using hp
    simp [load_growth_data, hp', dictGet] at h

theorem procSheets_stops : ∀ (pre : List Sheet) (sh : Sheet) (post : List Sheet)
    (acc : List (List ℕ × Df)) (e : List ℕ),
    sheetFirstMatch schoolNamesList sh = .error e →
    procSheets (pre ++ sh :: post) acc = procSheets (pre ++ [sh]) acc := by
  intro pre
  induction pre with
  | nil =>
    intro sh post acc e hE
    simp only [List.nil_append, procSheets, hE]
  | cons s1 rest ih =>
    intro sh post acc e hE
    simp only [List.cons_append, procSheets]
    cases hE1 : sheetFirstMatch schoolNamesList s1 with
    | ok r =>
      cases r with
      | some p =>
        obtain ⟨s', df'⟩ := p
        exact ih sh post _ e hE
      | none => exact ih sh post _ e hE
    | error e1 => rfl

/-! ## Claims C1, C2, C3, C9, C10 -/

/-- Generic step for C1: if both the target and the entry-name forms
normalize to `s`, the entry's first code point cannot combine leftwards, and
the rest of the file name is made of such code points, the locator's
substring test succeeds. -/
theorem locatorMatchAux (s t e pre suf : List ℕ)
    (ht : nfc t = s) (he : nfc e = s) (hne : e ≠ [])
    (hhd : inertChar (e.headD 0) = true)
    (hpre : ∀ c ∈ pre, inertChar c = true)
    (hsuf : ∀ c ∈ suf, inertChar c = true) :
    containsSub (normalize_filename t) (normalize_filename (pre ++ e ++ suf)) = true := by
  obtain ⟨y, ys, rfl⟩ : ∃ y ys, e = y :: ys := by
    cases e with
    | nil => exact absurd rfl hne
    | cons y ys => exact ⟨y, ys, rfl⟩
  have hy : inertChar y = true := by simpa using hhd
  unfold normalize_filename
  rw [ht]
  have hassoc : pre ++ (y :: ys) ++ suf = pre ++ (y :: (ys ++ suf)) := by
    simp [List.append_assoc]
  rw [hassoc]
  rw [nfc_append_inert pre.length pre y (ys ++ suf) le_rfl hy]
  rw [nfc_of_inert pre.length pre le_rfl hpre]
  cases suf with
  | nil =>
    have : y :: (ys ++ []) = y :: ys := by simp
    rw [this, he]
    have := containsSub_of_middle s pre []
    simpa using this
  | cons z zs =>
    have hz : inertChar z = true := hsuf z (by simp)
    have hsplit : y :: (ys ++ z :: zs) = (y :: ys) ++ z :: zs := by simp
    rw [hsplit]
    rw [nfc_append_inert (y :: ys).length (y :: ys) z zs le_rfl hz, he]
    rw [nfc_of_inert (z :: zs).length (z :: zs) le_rfl hsuf]
    have := containsSub_of_middle s pre (z :: zs)
    simpa using this

/-- C1: for every configured school, a target name in either NFC or NFD form
matches a directory/sheet entry carrying the school name in either form
(with arbitrary non-combining surrounding characters), because the locator
normalizes both sides before the substring test. -/
theorem claim1_locator_roundtrip :
    ∀ s ∈ schoolNamesList, ∀ t ∈ [s, nfd s], ∀ e ∈ [s, nfd s],
    ∀ pre suf : List ℕ, (∀ c ∈ pre, inertChar c = true) →
      (∀ c ∈ suf, inertChar c = true) →
      containsSub (normalize_filename t) (normalize_filename (pre ++ e ++ suf)) = true := by
  intro s hs t ht e he pre suf hpre hsuf
  simp only [schoolNamesList, SCHOOL_CONFIG, List.map_cons, List.map_nil,
    List.mem_cons, List.not_mem_nil, or_false] at hs
  simp only [List.mem_cons, List.not_mem_nil, or_false] at ht he
  rcases hs with rfl | rfl | rfl | rfl
  · rcases ht with rfl | rfl <;> rcases he with rfl | rfl <;>
      exact locatorMatchAux songdo _ _ pre suf (by decide) (by decide) (by decide)
        (by decide) hpre hsuf
  · rcases ht with rfl | rfl <;> rcases he with rfl | rfl <;>
      exact locatorMatchAux haneul _ _ pre suf (by decide) (by decide) (by decide)
        (by decide) hpre hsuf
  · rcases ht with rfl | rfl <;> rcases he with rfl | rfl <;>
      exact locatorMatchAux ara _ _ pre suf (by decide) (by decide) (by decide)
        (by decide) hpre hsuf
  · rcases ht with rfl | rfl <;> rcases he with rfl | rfl <;>
      exact locatorMatchAux dongsan _ _ pre suf (by decide) (by decide) (by decide)
        (by decide) hpre hsuf

/-- Witness for C1: the NFC target 송도고 matches the file name that stores
the school name in NFD followed by `.csv`. -/
theorem claim1_locator_roundtrip_witness :
    ([46, 99, 115, 118].all inertChar = true) ∧
    containsSub (normalize_filename songdo)
      (normalize_filename ([] ++ nfd songdo ++ [46, 99, 115, 118])) = true :=
  ⟨by decide,
    claim1_locator_roundtrip songdo (by simp [schoolNamesList, SCHOOL_CONFIG])
      songdo (by simp) (nfd songdo) (by simp) [] [46, 99, 115, 118]
      (by intro c hc; simp at hc) (by decide)⟩

/-- C2: the reported best school is the argmax of the mean weights, first
school in configured order on ties; concretely `[1.2, 3.4, 0.9, 2.1]` gives
하늘고 (B) and tieing 송도고 with 하늘고 at 3.4 gives 송도고 (A). -/
theorem claim2_best_school_argmax :
    (∀ ws : List ℚ, ws ≠ [] →
      ∃ i, optimalIdx ws = some i ∧ ∃ w, ws.get? i = some w ∧
        (∀ y ∈ ws, y ≤ w) ∧ ∀ j, j < i → ws.get? j ≠ some w) ∧
    optimalSchool [1.2, 3.4, 0.9, 2.1] = some haneul ∧
    optimalSchool [3.4, 3.4, 0.9, 2.1] = some songdo := by
  refine ⟨?_, ?_, ?_⟩
  · intro ws hne
    obtain ⟨x, xs, rfl⟩ : ∃ x xs, ws = x :: xs := by
      cases ws with
      | nil => exact absurd rfl hne
      | cons x xs => exact ⟨x, xs, rfl⟩
    obtain ⟨m, hm⟩ : ∃ m, pyMax (x :: xs) = some m := ⟨_, rfl⟩
    obtain ⟨hmem, hbound⟩ := pyMax_spec _ m hm
    obtain ⟨i, hi⟩ := pyIndexOf_of_mem _ m hmem
    obtain ⟨hget, hprev⟩ := pyIndexOf_spec _ m i hi
    refine ⟨i, ?_, m, hget, hbound, hprev⟩
    simp [optimalIdx, hm, hi]
  · norm_num [optimalSchool, optimalIdx, pyMax, pyIndexOf, List.foldl,
      schoolNamesList, SCHOOL_CONFIG]
  · norm_num [optimalSchool, optimalIdx, pyMax, pyIndexOf, List.foldl,
      schoolNamesList, SCHOOL_CONFIG]

/-- Witness for C2: the argmax part applied to the spec's concrete list. -/
theorem claim2_best_school_argmax_witness :
    ([(1.2 : ℚ), 3.4, 0.9, 2.1] ≠ []) ∧
    (∃ i, optimalIdx [(1.2 : ℚ), 3.4, 0.9, 2.1] = some i ∧
      ∃ w, [(1.2 : ℚ), 3.4, 0.9, 2.1].get? i = some w ∧
        (∀ y ∈ [(1.2 : ℚ), 3.4, 0.9, 2.1], y ≤ w) ∧
        ∀ j, j < i → [(1.2 : ℚ), 3.4, 0.9, 2.1].get? j ≠ some w) :=
  ⟨by simp, claim2_best_school_argmax.1 _ (by simp)⟩

/-- C3 fails on the code: a school present with an empty record set gets a
NaN mean, and the consumers of src/main.py:211-216 substitute the number 0
for an absent mean via `stats.get(key, 0)`. -/
theorem claim3_empty_stats_counterexample :
    (calculate_school_stats [(songdo, ([] : List EnvRow))] [] songdo).ec_avg
      = some PVal.nan ∧
    statGetEc [] [] songdo = PVal.num 0 := by
  exact ⟨by decide, by decide⟩

/-- C3 amended: `calculate_school_stats` itself omits the entries of an
absent school (explicit absence); but a school present with an empty record
set yields NaN means, and the chart consumers substitute 0 for absent
entries. -/
theorem claim3_empty_stats_amended :
    ∀ env growth s,
      (dictGet s env = none →
        (calculate_school_stats env growth s).temp_avg = none ∧
        (calculate_school_stats env growth s).humidity_avg = none ∧
        (calculate_school_stats env growth s).ph_avg = none ∧
        (calculate_school_stats env growth s).ec_avg = none) ∧
      (dictGet s env = some [] →
        (calculate_school_stats env growth s).temp_avg = some PVal.nan ∧
        (calculate_school_stats env growth s).humidity_avg = some PVal.nan ∧
        (calculate_school_stats env growth s).ph_avg = some PVal.nan ∧
        (calculate_school_stats env growth s).ec_avg = some PVal.nan) ∧
      (dictGet s env = none → statGetEc env growth s = PVal.num 0) := by
  intro env growth s
  refine ⟨?_, ?_, ?_⟩
  · intro h
    cases hg : dictGet s growth <;>
      simp [calculate_school_stats, h, hg]
  · intro h
    cases hg : dictGet s growth <;>
      simp [calculate_school_stats, h, hg, seriesMean]
  · intro h
    cases hg : dictGet s growth <;>
      simp [statGetEc, calculate_school_stats, h, hg]

/-- Witness for C3 amended: the empty mappings give the consumer value 0. -/
theorem claim3_empty_stats_amended_witness :
    (dictGet songdo ([] : List (List ℕ × List EnvRow)) = none) ∧
    statGetEc [] [] songdo = PVal.num 0 :=
  ⟨rfl, (claim3_empty_stats_amended [] [] songdo).2.2 rfl⟩

/-- C9: with the file-system state fixed, a second invocation of a cached
loader returns a result structurally equal to the first, which is the
loader's value on that directory. -/
theorem claim9_loader_idempotent :
    ∀ d : Directory,
      ((invokeEnvCached (invokeEnvCached none d).2 d).1 = (invokeEnvCached none d).1 ∧
        (invokeEnvCached none d).1 = load_env_data d) ∧
      ((invokeGrowthCached (invokeGrowthCached none d).2 d).1 = (invokeGrowthCached none d).1 ∧
        (invokeGrowthCached none d).1 = load_growth_data d) := by
  intro d
  exact ⟨⟨rfl, rfl⟩, ⟨rfl, rfl⟩⟩

/-! ## Concrete directories used by witnesses and counterexamples -/

/-- Column name `temperature`. -/
def tempColName : List ℕ := [116, 101, 109, 112, 101, 114, 97, 116, 117, 114, 101]

/-- Column name `humidity`. -/
def humidityColName : List ℕ := [104, 117, 109, 105, 100, 105, 116, 121]

/-- Column name `ph`. -/
def phColName : List ℕ := [112, 104]

/-- Column name `ec`. -/
def ecColName : List ℕ := [101, 99]

/-- Column name 생중량(g). -/
def weightColName : List ℕ := [0xC0DD, 0xC911, 0xB7C9, 0x28, 0x67, 0x29]

/-- Column name 잎 수(장). -/
def leafColName : List ℕ := [0xC78E, 0x20, 0xC218, 0x28, 0xC7A5, 0x29]

/-- Column name 지상부 길이(mm). -/
def shootColName : List ℕ := [0xC9C0, 0xC0C1, 0xBD80, 0x20, 0xAE38, 0xC774, 0x28, 0x6D, 0x6D, 0x29]

/-- Column name 지하부길이(mm). -/
def rootColName : List ℕ := [0xC9C0, 0xD558, 0xBD80, 0xAE38, 0xC774, 0x28, 0x6D, 0x6D, 0x29]

/-- The timestamp string `2024-01-01 10:00`. -/
def tsGood : List ℕ := [50, 48, 50, 52, 45, 48, 49, 45, 48, 49, 32, 49, 48, 58, 48, 48]

/-- The string `not-a-date`. -/
def tsBad : List ℕ := [110, 111, 116, 45, 97, 45, 100, 97, 116, 101]

/-- The extension `.csv`. -/
def dotCsv : List ℕ := [46, 99, 115, 118]

/-- The extension `.xlsx`. -/
def dotXlsx : List ℕ := [46, 120, 108, 115, 120]

/-- An environment frame as pandas reads it: one well-formed and one
malformed timestamp, both kept as raw strings. -/
def dfEnvEx : Df :=
  ⟨[timeColName, tempColName, humidityColName, phColName, ecColName],
   [[tsGood, [50, 48], [53, 48], [54], [49]],
    [tsBad, [50, 49], [53, 49], [54], [49]]]⟩

/-- A growth frame as pandas reads it. -/
def dfGrowthEx : Df :=
  ⟨[weightColName, leafColName, shootColName, rootColName],
   [[[53], [52], [49, 48], [56]]]⟩

/-- A second growth frame. -/
def dfGrowthEx2 : Df :=
  ⟨[weightColName, leafColName, shootColName, rootColName],
   [[[54], [53], [49, 49], [57]]]⟩

/-- A directory with 송도고's CSV and the growth workbook (sheet 송도고). -/
def dirFullEx : Directory :=
  ⟨true, [⟨songdo ++ dotCsv, .ok dfEnvEx, .error []⟩,
          ⟨[103, 114] ++ dotXlsx, .error [], .ok [⟨songdo, .ok dfGrowthEx⟩]⟩]⟩

/-- A directory whose only file matches no school name. -/
def dirPlain : Directory :=
  ⟨true, [⟨[112, 108, 97, 105, 110] ++ dotCsv, .ok dfEnvEx, .error []⟩]⟩

/-- An exception message. -/
def errBoom : List ℕ := [98, 111, 111, 109]

/-- Sheet for 송도고 that reads fine. -/
def shSongdoOk : Sheet := ⟨songdo, .ok dfGrowthEx⟩

/-- Sheet for 하늘고 whose `read_excel` raises. -/
def shHaneulBad : Sheet := ⟨haneul, .error errBoom⟩

/-- Sheet for 아라고 that reads fine. -/
def shAraOk : Sheet := ⟨ara, .ok dfGrowthEx2⟩

/-- A workbook whose middle sheet fails to read. -/
def dirC6 : Directory :=
  ⟨true, [⟨[103, 114] ++ dotXlsx, .error [],
           .ok [shSongdoOk, shHaneulBad, shAraOk]⟩]⟩

/-- A second environment frame. -/
def dfEnv2 : Df :=
  ⟨[timeColName, tempColName, humidityColName, phColName, ecColName],
   [[tsGood, [50, 50], [53, 50], [55], [50]]]⟩

/-- An exception message. -/
def errRead : List ℕ := [101, 114, 114]

/-- A directory where 송도고's CSV fails to read but 하늘고's reads fine. -/
def dirC6w : Directory :=
  ⟨true, [⟨songdo ++ dotCsv, .error errRead, .error []⟩,
          ⟨haneul ++ dotCsv, .ok dfEnv2, .error []⟩]⟩

/-! ## Claims C5, C6, C7, C8 -/

/-- C5 fails on the code: `load_env_data` stores the frame exactly as read,
so the malformed-timestamp row survives as a raw string instead of being
parsed, dropped and counted. -/
theorem claim5_timestamps_counterexample :
    dictGet songdo (load_env_data dirFullEx).data = some dfEnvEx ∧
    dfColumn dfEnvEx timeColName = [tsGood, tsBad] ∧
    specParseableTs tsBad = false ∧
    specParseableTs tsGood = true ∧
    dfEnvEx.rows.length = 2 :=
  ⟨by decide, by decide, by decide, by decide, by decide⟩

/-- C5 amended: the loader keeps every row exactly as read — no timestamp
parsing and no dropping occur, so for any `N` well-formed and `M` malformed
timestamp rows the kept-row count is `N + M` and the dropped count is 0. -/
theorem claim5_rows_kept_amended :
    ∀ (d : Directory) (s : List ℕ) (df : Df),
      dictGet s (load_env_data d).data = some df →
      (∃ f, f ∈ d.entries ∧ isCsvName f.name = true ∧ f.readCsvR = .ok df) ∧
      ((df.header.findIdx? (fun c => c == timeColName)).isSome = true →
        (dfColumn df timeColName).countP specParseableTs +
          (dfColumn df timeColName).countP (fun c => !(specParseableTs c)) =
          df.rows.length) := by
  intro d s df h
  obtain ⟨f, hf, hcsv, _, hok⟩ := load_env_data_lookup d s df h
  constructor
  · exact ⟨f, hf, hcsv, hok⟩
  · intro hidx
    cases hfind : df.header.findIdx? (fun c => c == timeColName) with
    | none => rw [hfind] at hidx; simp at hidx
    | some i =>
      have hcol : dfColumn df timeColName = df.rows.map (fun r => r.getD i []) := by
        simp [dfColumn, hfind]
      rw [hcol, countP_partition]
      simp

/-- Witness for C5 amended: the concrete frame with one good and one bad
timestamp row keeps both. -/
theorem claim5_rows_kept_amended_witness :
    ((dfEnvEx.header.findIdx? (fun c => c == timeColName)).isSome = true) ∧
    ((dfColumn dfEnvEx timeColName).countP specParseableTs +
      (dfColumn dfEnvEx timeColName).countP (fun c => !(specParseableTs c)) =
      dfEnvEx.rows.length) :=
  ⟨by decide,
   (claim5_rows_kept_amended dirFullEx songdo dfEnvEx (by decide)).2 (by decide)⟩

/-- C6 fails on the code for the growth loader: one failing sheet aborts the
whole sheet loop, so 아라고's perfectly readable sheet is never loaded. -/
theorem claim6_batch_counterexample :
    load_growth_data dirC6 = ⟨[(songdo, dfGrowthEx)], [Msg.xlsxLoadFail errBoom]⟩ ∧
    dictGet ara (load_growth_data dirC6).data = none ∧
    shAraOk.readR = .ok dfGrowthEx2 :=
  ⟨by decide, by decide, by decide⟩

/-- C6 amended: the environment loader really is per-file isolated — a file
whose read fails only warns, and any other CSV whose first matching school's
read succeeds still lands in the mapping; the growth loader is not — a
failing sheet ends the loop, the sheets after it are never consulted, and
the mapping accumulated before the failure is returned with an error. -/
theorem claim6_batch_isolation_amended :
    (∀ (d : Directory) (f : FileEntry) (s : List ℕ) (df : Df),
      d.present = true → f ∈ d.entries → isCsvName f.name = true →
      f.readCsvR = .ok df → firstMatchSchool f.name = some s →
      (dictGet s (load_env_data d).data).isSome = true) ∧
    (∀ (pre : List Sheet) (sh : Sheet) (post : List Sheet)
        (acc : List (List ℕ × Df)) (e : List ℕ),
      sheetFirstMatch schoolNamesList sh = .error e →
      procSheets (pre ++ sh :: post) acc = procSheets (pre ++ [sh]) acc) := by
  constructor
  · intro d f s df hp hf hcsv hok hfm
    obtain ⟨l1, l2, heq⟩ := List.append_of_mem hf
    rw [load_env_data_data _ hp, heq, envFold_append]
    rcases hacc : envFold l1 ([], []) with ⟨dict1, w1⟩
    show (dictGet s (envFold (f :: l2) (dict1, w1)).1).isSome = true
    simp only [envFold]
    rw [if_pos hcsv]
    rw [envMatchSchools_ok f df hok schoolNamesList]
    simp only [firstMatchSchool] at hfm
    rw [hfm]
    exact envFold_isSome_mono l2 _ _ s (by rw [dictGet_dictSet_self]; rfl)
  · exact procSheets_stops

/-- Witness for C6 amended: 하늘고's CSV loads although 송도고's fails, and
a failing middle sheet makes the growth loop independent of what follows. -/
theorem claim6_batch_isolation_amended_witness :
    ((dictGet haneul (load_env_data dirC6w).data).isSome = true) ∧
    procSheets ([shSongdoOk] ++ shHaneulBad :: [shAraOk]) [] =
      procSheets ([shSongdoOk] ++ [shHaneulBad]) [] :=
  ⟨claim6_batch_isolation_amended.1 dirC6w
      ⟨haneul ++ dotCsv, .ok dfEnv2, .error []⟩ haneul dfEnv2
      rfl (by decide) (by decide) rfl (by decide),
   claim6_batch_isolation_amended.2 [shSongdoOk] shHaneulBad [shAraOk] [] errBoom
      (by decide)⟩

/-- C7: when the data directory exists but nothing matches a school, both
loaders return with that school simply absent from the mapping; every
fallible library call is handled, so nothing escapes as an exception. -/
theorem claim7_missing_is_absent :
    ∀ (d : Directory) (s : List ℕ), d.present = true →
      ((∀ f ∈ d.entries,
          containsSub (normalize_filename s) (normalize_filename f.name) = false) →
        dictGet s (load_env_data d).data = none) ∧
      ((∀ f ∈ d.entries, ∀ sheets, f.openXlsxR = .ok sheets →
          ∀ sh ∈ sheets,
            containsSub (normalize_filename s) (normalize_filename sh.name) = false) →
        dictGet s (load_growth_data d).data = none) := by
  intro d s hp
  constructor
  · intro hno
    cases hv : dictGet s (load_env_data d).data with
    | none => rfl
    | some df =>
      obtain ⟨f, hf, _, hcont, _⟩ := load_env_data_lookup d s df hv
      rw [hno f hf] at hcont
      simp at hcont
  · intro hno
    cases hv : dictGet s (load_growth_data d).data with
    | none => rfl
    | some df =>
      obtain ⟨f, hf, _, sheets, hopen, sh, hsh, hcont, _⟩ :=
        load_growth_data_lookup d s df hv
      rw [hno f hf sheets hopen sh hsh] at hcont
      simp at hcont

/-- Witness for C7: a directory holding only `plain.csv` yields no entry for
송도고 in either loader. -/
theorem claim7_missing_is_absent_witness :
    dictGet songdo (load_env_data dirPlain).data = none ∧
    dictGet songdo (load_growth_data dirPlain).data = none :=
  ⟨(claim7_missing_is_absent dirPlain songdo rfl).1 (by decide),
   (claim7_missing_is_absent dirPlain songdo rfl).2 (by
      intro f hf sheets hopen
      simp [dirPlain] at hf
      subst hf
      simp at hopen)⟩

/-- C8 fails on the code: the loaders store each frame exactly as pandas
returned it, keyed by school — no school-identifier or target-EC field is
added to any row; the returned headers are exactly the file's own columns. -/
theorem claim8_stamping_counterexample :
    dictGet songdo (load_env_data dirFullEx).data = some dfEnvEx ∧
    dfEnvEx.header = [timeColName, tempColName, humidityColName, phColName, ecColName] ∧
    dictGet songdo (load_growth_data dirFullEx).data = some dfGrowthEx ∧
    dfGrowthEx.header = [weightColName, leafColName, shootColName, rootColName] :=
  ⟨by decide, by decide, by decide, by decide⟩

/-- C8 amended: school identity (and hence the target EC, which lives only
in `SCHOOL_CONFIG`) is carried by the mapping key alone — every loaded frame
is exactly the frame some matching file or sheet read to, unmodified. -/
theorem claim8_no_stamping_amended :
    (∀ (d : Directory) (s : List ℕ) (df : Df),
      dictGet s (load_env_data d).data = some df →
      ∃ f, f ∈ d.entries ∧ isCsvName f.name = true ∧
        containsSub (normalize_filename s) (normalize_filename f.name) = true ∧
        f.readCsvR = .ok df) ∧
    (∀ (d : Directory) (s : List ℕ) (df : Df),
      dictGet s (load_growth_data d).data = some df →
      ∃ f, f ∈ d.entries ∧ isXlsxName f.name = true ∧
        ∃ sheets, f.openXlsxR = .ok sheets ∧
          ∃ sh, sh ∈ sheets ∧
            containsSub (normalize_filename s) (normalize_filename sh.name) = true ∧
            sh.readR = .ok df) :=
  ⟨load_env_data_lookup, load_growth_data_lookup⟩

/-- Witness for C8 amended: 송도고's loaded frame is traced back to its file. -/
theorem claim8_no_stamping_amended_witness :
    (dictGet songdo (load_env_data dirFullEx).data = some dfEnvEx) ∧
    (∃ f, f ∈ dirFullEx.entries ∧ isCsvName f.name = true ∧
      containsSub (normalize_filename songdo) (normalize_filename f.name) = true ∧
      f.readCsvR = .ok dfEnvEx) :=
  ⟨by decide, claim8_no_stamping_amended.1 dirFullEx songdo dfEnvEx (by decide)⟩

/-! ## Lemmas: the summary-table sort -/

theorem strLtB_asymm : ∀ a b, strLtB a b = true → strLtB b a = false := by
  intro a
  induction a with
  | nil =>
    intro b h
    cases b with
    | nil => simp [strLtB] at h
    | cons c cs => simp [strLtB]
  | cons x xs ih =>
    intro b h
    cases b with
    | nil => simp [strLtB] at h
    | cons y ys =>
      simp only [strLtB] at h ⊢
      by_cases hxy : x < y
      · rw [if_neg (by omega : ¬y < x), if_pos hxy]
      · rw [if_neg hxy] at h
        by_cases hyx : y < x
        · rw [if_pos hyx] at h
          simp at h
        · rw [if_neg hyx] at h
          rw [if_neg hyx, if_neg hxy]
          exact ih ys h

theorem chain_insertRowDesc (r : SummaryRow0) :
    ∀ l : List SummaryRow0,
      List.Chain' (fun a b => strLtB a.wStr b.wStr = false) l →
      List.Chain' (fun a b => strLtB a.wStr b.wStr = false) (insertRowDesc r l) := by
  intro l
  induction l with
  | nil => intro _; simp [insertRowDesc]
  | cons x xs ih =>
    intro h
    simp only [insertRowDesc]
    by_cases hrx : strLtB r.wStr x.wStr = true
    · rw [if_pos hrx]
      have hins := ih (List.Chain'.tail h)
      rw [List.chain'_cons']
      refine ⟨?_, hins⟩
      intro y hy
      cases xs with
      | nil =>
        simp [insertRowDesc] at hy
        subst hy
        exact strLtB_asymm _ _ hrx
      | cons z zs =>
        simp only [insertRowDesc] at hy
        by_cases hrz : strLtB r.wStr z.wStr = true
        · rw [if_pos hrz] at hy
          simp at hy
          subst hy
          exact (List.chain'_cons.mp h).1
        · rw [if_neg hrz] at hy
          simp at hy
          subst hy
          exact strLtB_asymm _ _ hrx
    · rw [if_neg hrx]
      rw [List.chain'_cons]
      exact ⟨by simpa using hrx, h⟩

theorem chain_sortRowsDesc (l : List SummaryRow0) :
    List.Chain' (fun a b => strLtB a.wStr b.wStr = false) (sortRowsDesc l) := by
  have haux : ∀ (l2 : List SummaryRow0) (acc : List SummaryRow0),
      List.Chain' (fun a b => strLtB a.wStr b.wStr = false) acc →
      List.Chain' (fun a b => strLtB a.wStr b.wStr = false)
        (l2.foldl (fun acc r => insertRowDesc r acc) acc) := by
    intro l2
    induction l2 with
    | nil => intro acc h; exact h
    | cons r rs ih => intro acc h; exact ih _ (chain_insertRowDesc r acc h)
  exact haux l [] (by simp)

theorem attachRanks_length : ∀ (i : ℕ) (l : List SummaryRow0),
    (attachRanks i l).length = l.length := by
  intro i l
  induction l generalizing i with
  | nil => rfl
  | cons r rs ih => simp [attachRanks, ih]

theorem attachRanks_map_rank : ∀ (i : ℕ) (l : List SummaryRow0),
    (attachRanks i l).map SummaryRow.rank = List.range' i l.length := by
  intro i l
  induction l generalizing i with
  | nil => rfl
  | cons r rs ih => simp [attachRanks, ih, List.range']

theorem attachRanks_map_w : ∀ (i : ℕ) (l : List SummaryRow0),
    (attachRanks i l).map SummaryRow.wStr = l.map SummaryRow0.wStr := by
  intro i l
  induction l generalizing i with
  | nil => rfl
  | cons r rs ih => simp [attachRanks, ih]

/-! ## Claim C4 -/

/-- C4 fails on the code: the table is sorted on the 3-decimal *formatted
strings*, so with weights `[9, 10, 1, 2]` (configuration order 송도고,
하늘고, 아라고, 동산고) rank 1 goes to 송도고 (string `"9.000"`) although
하늘고's mean weight 10 is the largest — `"9.000" > "10.000"`
lexicographically. -/
theorem claim4_rank_counterexample :
    (summaryTable [1, 2, 4, 8] [6, 6, 6, 6] [9, 10, 1, 2]).map SummaryRow.school
      = [songdo, dongsan, haneul, ara] ∧
    (summaryTable [1, 2, 4, 8] [6, 6, 6, 6] [9, 10, 1, 2]).map SummaryRow.rank
      = [1, 2, 3, 4] ∧
    ((summaryTable [1, 2, 4, 8] [6, 6, 6, 6] [9, 10, 1, 2]).head?).map SummaryRow.school
      = some songdo ∧
    ((9 : ℚ) < 10) :=
  ⟨by decide, by decide, by decide, by decide⟩

/-- C4 amended: the summary table's rows are ordered by *descending
lexicographic order of the 3-decimal formatted weight string* (which agrees
with descending numeric order only when the formatted strings are
like-shaped), and the rank column is `1..n` in listed order. -/
theorem claim4_summary_rank_amended :
    ∀ ecs phs ws : List ℚ,
      ((summaryTable ecs phs ws).map SummaryRow.rank =
        List.range' 1 (summaryTable ecs phs ws).length) ∧
      List.Chain' (fun a b => strLtB a b = false)
        ((summaryTable ecs phs ws).map SummaryRow.wStr) := by
  intro ecs phs ws
  constructor
  · show (attachRanks 1 _).map SummaryRow.rank = List.range' 1 (attachRanks 1 _).length
    rw [attachRanks_map_rank, attachRanks_length]
  · show List.Chain' _ ((attachRanks 1 (sortRowsDesc _)).map SummaryRow.wStr)
    rw [attachRanks_map_w, List.chain'_map]
    exact chain_sortRowsDesc _

/-! ## `calculate_school_stats` with fallible column access

The loaders perform no schema validation, so a frame stored for a school
need not carry the columns `calculate_school_stats` reads; pandas
`df['colname']` raises `KeyError` when the column is absent
(src/main.py:111-123).  This view models a loaded frame by its named
numeric columns plus `len(df)`, and the column accesses in the order the
source performs them, a missing column raising (`.error` = the `KeyError`,
carrying the column name). -/

/-- A pandas frame as the statistics layer sees it: named float columns
(pandas types well-formed numeric columns at read time) and the row count
`len(df)`. -/
structure PFrame where
  cols : List (List ℕ × List ℚ)
  nrows : ℕ
deriving DecidableEq

/-- `df['colname']`: the column's series, or a raised `KeyError`. -/
def frameCol (df : PFrame) (c : List ℕ) : Except (List ℕ) (List ℚ) :=
  match dictGet c df.cols with
  | some xs => .ok xs
  | none => .error c

/-- The environment block of `calculate_school_stats` (src/main.py:109-114):
the four column accesses in source order, each able to raise. -/
def envBlockE (df : PFrame) (s0 : SchoolStats) : Except (List ℕ) SchoolStats :=
  match frameCol df tempColName with
  | .error e => .error e
  | .ok t =>
    match frameCol df humidityColName with
    | .error e => .error e
    | .ok h =>
      match frameCol df phColName with
      | .error e => .error e
      | .ok p =>
        match frameCol df ecColName with
        | .error e => .error e
        | .ok ec =>
          .ok { s0 with
            temp_avg := some (seriesMean t),
            humidity_avg := some (seriesMean h),
            ph_avg := some (seriesMean p),
            ec_avg := some (seriesMean ec) }

/-- The growth block of `calculate_school_stats` (src/main.py:117-123). -/
def growthBlockE (df : PFrame) (s1 : SchoolStats) : Except (List ℕ) SchoolStats :=
  match frameCol df weightColName with
  | .error e => .error e
  | .ok w =>
    match frameCol df leafColName with
    | .error e => .error e
    | .ok l =>
      match frameCol df shootColName with
      | .error e => .error e
      | .ok a =>
        match frameCol df rootColName with
        | .error e => .error e
        | .ok b =>
          .ok { s1 with
            weight_avg := some (seriesMean w),
            leaf_avg := some (seriesMean l),
            above_avg := some (seriesMean a),
            below_avg := some (seriesMean b),
            sample_count := some df.nrows }

/-- `calculate_school_stats` (src/main.py:104-125) with the column accesses
fallible: an exception in the environment block propagates before the
growth block runs, exactly as in the source. -/
def calculate_school_statsE (env_data growth_data : List (List ℕ × PFrame))
    (school : List ℕ) : Except (List ℕ) SchoolStats :=
  let s0 : SchoolStats := {}
  match (match dictGet school env_data with
         | some df => envBlockE df s0
         | none => .ok s0) with
  | .error e => .error e
  | .ok s1 =>
    match dictGet school growth_data with
    | some df => growthBlockE df s1
    | none => .ok s1

/-- A school-named frame that lacks the `temperature` column (the loaders
validate nothing, so such a frame loads fine). -/
def badFrame : PFrame := ⟨[(phColName, [6])], 1⟩

/-- A well-formed environment frame for the fallible view. -/
def goodEnvFrame : PFrame :=
  ⟨[(tempColName, [20]), (humidityColName, [50]), (phColName, [6]), (ecColName, [1])], 1⟩

/-- A well-formed growth frame for the fallible view. -/
def goodGrowthFrame : PFrame :=
  ⟨[(weightColName, [5]), (leafColName, [4]), (shootColName, [10]), (rootColName, [8])], 1⟩

theorem frameCol_ok (df : PFrame) (c : List ℕ) (xs : List ℚ)
    (h : dictGet c df.cols = some xs) : frameCol df c = .ok xs := by
  simp [frameCol, h]

theorem envBlockE_ok (df : PFrame) (s0 : SchoolStats) (t h p e : List ℚ)
    (h1 : dictGet tempColName df.cols = some t)
    (h2 : dictGet humidityColName df.cols = some h)
    (h3 : dictGet phColName df.cols = some p)
    (h4 : dictGet ecColName df.cols = some e) :
    envBlockE df s0 = .ok { s0 with
      temp_avg := some (seriesMean t),
      humidity_avg := some (seriesMean h),
      ph_avg := some (seriesMean p),
      ec_avg := some (seriesMean e) } := by
  simp [envBlockE, frameCol_ok df _ t h1, frameCol_ok df _ h h2,
    frameCol_ok df _ p h3, frameCol_ok df _ e h4]

theorem growthBlockE_ok (df : PFrame) (s1 : SchoolStats) (w l a b : List ℚ)
    (h1 : dictGet weightColName df.cols = some w)
    (h2 : dictGet leafColName df.cols = some l)
    (h3 : dictGet shootColName df.cols = some a)
    (h4 : dictGet rootColName df.cols = some b) :
    growthBlockE df s1 = .ok { s1 with
      weight_avg := some (seriesMean w),
      leaf_avg := some (seriesMean l),
      above_avg := some (seriesMean a),
      below_avg := some (seriesMean b),
      sample_count := some df.nrows } := by
  simp [growthBlockE, frameCol_ok df _ w h1, frameCol_ok df _ l h2,
    frameCol_ok df _ a h3, frameCol_ok df _ b h4]

/-! ## Claim C10 -/

/-- C10 fails on the code: a school *present* in the environment mapping via
a frame without a `temperature` column (which the loaders happily store)
makes `calculate_school_stats` raise `KeyError` at src/main.py:111 instead
of returning. -/
theorem claim10_stats_raises_counterexample :
    (dictGet songdo [(songdo, badFrame)]).isSome = true ∧
    calculate_school_statsE [(songdo, badFrame)] [] songdo = .error tempColName :=
  ⟨by decide, by decide⟩

/-- C10 amended: provided every frame stored for the school carries the
columns the function reads (the code raises `KeyError` otherwise, since the
loaders validate nothing), `calculate_school_stats` returns normally, with
the four environment means exactly when the school is in the environment
mapping, the four growth means and the sample count `len(growth_df)`
exactly when it is in the growth mapping, and the empty record when in
neither. -/
theorem claim10_stats_shape_amended :
    ∀ (env growth : List (List ℕ × PFrame)) (s : List ℕ),
      (∀ df, dictGet s env = some df →
        (dictGet tempColName df.cols).isSome = true ∧
        (dictGet humidityColName df.cols).isSome = true ∧
        (dictGet phColName df.cols).isSome = true ∧
        (dictGet ecColName df.cols).isSome = true) →
      (∀ df, dictGet s growth = some df →
        (dictGet weightColName df.cols).isSome = true ∧
        (dictGet leafColName df.cols).isSome = true ∧
        (dictGet shootColName df.cols).isSome = true ∧
        (dictGet rootColName df.cols).isSome = true) →
      ∃ st, calculate_school_statsE env growth s = .ok st ∧
        (st.temp_avg.isSome = (dictGet s env).isSome ∧
         st.humidity_avg.isSome = (dictGet s env).isSome ∧
         st.ph_avg.isSome = (dictGet s env).isSome ∧
         st.ec_avg.isSome = (dictGet s env).isSome) ∧
        (st.weight_avg.isSome = (dictGet s growth).isSome ∧
         st.leaf_avg.isSome = (dictGet s growth).isSome ∧
         st.above_avg.isSome = (dictGet s growth).isSome ∧
         st.below_avg.isSome = (dictGet s growth).isSome ∧
         st.sample_count.isSome = (dictGet s growth).isSome) ∧
        (∀ df, dictGet s growth = some df → st.sample_count = some df.nrows) ∧
        (dictGet s env = none → dictGet s growth = none → st = ({} : SchoolStats)) := by
  intro env growth s hec hgc
  cases henv : dictGet s env with
  | none =>
    cases hg : dictGet s growth with
    | none =>
      refine ⟨{}, by simp [calculate_school_statsE, henv, hg], ?_⟩
      refine ⟨⟨rfl, rfl, rfl, rfl⟩, ⟨rfl, rfl, rfl, rfl, rfl⟩, ?_, fun _ _ => rfl⟩
      intro df hdf
      exact Option.noConfusion hdf
    | some dfg =>
      obtain ⟨hw, hl, ha, hb⟩ := hgc dfg hg
      obtain ⟨w, hw'⟩ := Option.isSome_iff_exists.mp hw
      obtain ⟨l, hl'⟩ := Option.isSome_iff_exists.mp hl
      obtain ⟨a, ha'⟩ := Option.isSome_iff_exists.mp ha
      obtain ⟨b, hb'⟩ := Option.isSome_iff_exists.mp hb
      refine ⟨⟨none, none, none, none, some (seriesMean w), some (seriesMean l),
        some (seriesMean a), some (seriesMean b), some dfg.nrows⟩, ?_, ?_⟩
      · simp [calculate_school_statsE, henv, hg,
          growthBlockE_ok dfg _ w l a b hw' hl' ha' hb']
      · refine ⟨⟨rfl, rfl, rfl, rfl⟩, ⟨rfl, rfl, rfl, rfl, rfl⟩, ?_, ?_⟩
        · intro df hdf
          injection hdf with hdf
          subst hdf
          rfl
        · intro _ hcon
          exact Option.noConfusion hcon
  | some dfe =>
    obtain ⟨h1, h2, h3, h4⟩ := hec dfe henv
    obtain ⟨t, ht⟩ := Option.isSome_iff_exists.mp h1
    obtain ⟨hv, hh⟩ := Option.isSome_iff_exists.mp h2
    obtain ⟨p, hp⟩ := Option.isSome_iff_exists.mp h3
    obtain ⟨e, he⟩ := Option.isSome_iff_exists.mp h4
    cases hg : dictGet s growth with
    | none =>
      refine ⟨⟨some (seriesMean t), some (seriesMean hv), some (seriesMean p),
        some (seriesMean e), none, none, none, none, none⟩, ?_, ?_⟩
      · simp [calculate_school_statsE, henv, hg,
          envBlockE_ok dfe _ t hv p e ht hh hp he]
      · refine ⟨⟨rfl, rfl, rfl, rfl⟩, ⟨rfl, rfl, rfl, rfl, rfl⟩, ?_, ?_⟩
        · intro df hdf
          exact Option.noConfusion hdf
        · intro hcon _
          exact Option.noConfusion hcon
    | some dfg =>
      obtain ⟨hw, hl, ha, hb⟩ := hgc dfg hg
      obtain ⟨w, hw'⟩ := Option.isSome_iff_exists.mp hw
      obtain ⟨l, hl'⟩ := Option.isSome_iff_exists.mp hl
      obtain ⟨a, ha'⟩ := Option.isSome_iff_exists.mp ha
      obtain ⟨b, hb'⟩ := Option.isSome_iff_exists.mp hb
      refine ⟨⟨some (seriesMean t), some (seriesMean hv), some (seriesMean p),
        some (seriesMean e), some (seriesMean w), some (seriesMean l),
        some (seriesMean a), some (seriesMean b), some dfg.nrows⟩, ?_, ?_⟩
      · simp [calculate_school_statsE, henv, hg,
          envBlockE_ok dfe _ t hv p e ht hh hp he,
          growthBlockE_ok dfg _ w l a b hw' hl' ha' hb']
      · refine ⟨⟨rfl, rfl, rfl, rfl⟩, ⟨rfl, rfl, rfl, rfl, rfl⟩, ?_, ?_⟩
        · intro df hdf
          injection hdf with hdf
          subst hdf
          rfl
        · intro hcon _
          exact Option.noConfusion hcon

/-- Witness for C10 amended: a school present in both mappings with
well-formed frames returns normally with the full shape. -/
theorem claim10_stats_shape_amended_witness :
    ∃ st, calculate_school_statsE [(songdo, goodEnvFrame)]
        [(songdo, goodGrowthFrame)] songdo = .ok st ∧
      (st.temp_avg.isSome = (dictGet songdo [(songdo, goodEnvFrame)]).isSome ∧
       st.humidity_avg.isSome = (dictGet songdo [(songdo, goodEnvFrame)]).isSome ∧
       st.ph_avg.isSome = (dictGet songdo [(songdo, goodEnvFrame)]).isSome ∧
       st.ec_avg.isSome = (dictGet songdo [(songdo, goodEnvFrame)]).isSome) ∧
      (st.weight_avg.isSome = (dictGet songdo [(songdo, goodGrowthFrame)]).isSome ∧
       st.leaf_avg.isSome = (dictGet songdo [(songdo, goodGrowthFrame)]).isSome ∧
       st.above_avg.isSome = (dictGet songdo [(songdo, goodGrowthFrame)]).isSome ∧
       st.below_avg.isSome = (dictGet songdo [(songdo, goodGrowthFrame)]).isSome ∧
       st.sample_count.isSome = (dictGet songdo [(songdo, goodGrowthFrame)]).isSome) ∧
      (∀ df, dictGet songdo [(songdo, goodGrowthFrame)] = some df →
        st.sample_count = some df.nrows) ∧
      (dictGet songdo [(songdo, goodEnvFrame)] = none →
        dictGet songdo [(songdo, goodGrowthFrame)] = none →
        st = ({} : SchoolStats)) :=
  claim10_stats_shape_amended [(songdo, goodEnvFrame)] [(songdo, goodGrowthFrame)] songdo
    (by
      intro df hdf
      have h0 : dictGet songdo [(songdo, goodEnvFrame)] = some goodEnvFrame := rfl
      rw [h0] at hdf
      injection hdf with hdf
      subst hdf
      exact ⟨by decide, by decide, by decide, by decide⟩)
    (by
      intro df hdf
      have h0 : dictGet songdo [(songdo, goodGrowthFrame)] = some goodGrowthFrame := rfl
      rw [h0] at hdf
      injection hdf with hdf
      subst hdf
      exact ⟨by decide, by decide, by decide, by decide⟩)

end PolarPlant
